import Mathlib

/-
Verification of the client-side logic of the inventory-management
repository.  The JavaScript sources are shallowly embedded: each pure
function becomes a Lean definition over Nat / String / List, keeping the
source's branch structure and names.  Namespaces group the definitions by
source file:

* `ProductsPage` — the products page script (unnamed source, part_000);
* `ProductsJS`   — static/js/products.js;
* `ReportsJS`    — the reports section of static/js/dashboard.js;
* `ApiJS`        — the `InventoryAPI` class (unnamed source, part_001);
* `Backend`      — the server-side listing endpoint, which is not part of
  the delivered sources and is therefore modelled from the specification.
-/

/-- Product record as exposed by the JSON API (README database schema:
id, sku, name, category, price, stock_quantity, description).  The
price, a two-digit decimal in the store, is modelled as a rational
number; timestamps play no role in the claims below and are omitted. -/
structure Product where
  id : Nat
  sku : String
  name : String
  category : String
  price : ℚ
  stock_quantity : Nat
  description : String
deriving DecidableEq

namespace ProductsPage

/-- Embedding of `getStatusBadge(stockQuantity)` from the products page
script (part_000, lines 29-37).  Note the second branch tests
`stockQuantity <= 10`, so quantity 10 falls into the low-stock badge. -/
def getStatusBadge (stockQuantity : Nat) : String :=
  if stockQuantity = 0 then
    "<span class=\"status out-of-stock\">Out of Stock</span>"
  else if stockQuantity ≤ 10 then
    "<span class=\"status low-stock\">Low Stock</span>"
  else
    "<span class=\"status in-stock\">In Stock</span>"

end ProductsPage

namespace ProductsJS

/-- Embedding of the constant `productsPerPage = 10` of
static/js/products.js. -/
def productsPerPage : Nat := 10

/-- Embedding of `getStatusClass(stock)` (products.js, lines 80-84). -/
def getStatusClass (stock : Nat) : String :=
  if stock = 0 then "out-of-stock"
  else if stock < 10 then "low-stock"
  else "in-stock"

/-- Embedding of `getStatusText(stock)` (products.js, lines 86-90). -/
def getStatusText (stock : Nat) : String :=
  if stock = 0 then "Out of Stock"
  else if stock < 10 then "Low Stock"
  else "In Stock"

/-- Embedding of the page slice taken by `renderProductsTable`
(products.js, lines 60-62): `products.slice(startIndex, endIndex)` with
`startIndex = (currentPage - 1) * productsPerPage` and
`endIndex = startIndex + productsPerPage`.  For natural-number indices
`Array.prototype.slice(s, e)` is `drop s` of `take e`. -/
def pageProducts (products : List α) (currentPage : Nat) : List α :=
  let startIndex := (currentPage - 1) * productsPerPage
  let endIndex := startIndex + productsPerPage
  (products.take endIndex).drop startIndex

/-- Embedding of `totalPages = Math.ceil(totalProducts / productsPerPage)`
(products.js, line 249); the ceiling division of naturals. -/
def totalPages (totalProducts : Nat) : Nat :=
  (totalProducts + (productsPerPage - 1)) / productsPerPage

/-- Embedding of `prevBtn.disabled = currentPage === 1`
(products.js, line 259). -/
def prevDisabled (currentPage : Nat) : Bool :=
  currentPage == 1

/-- Embedding of `nextBtn.disabled = currentPage === totalPages`
(products.js, line 264). -/
def nextDisabled (totalProducts currentPage : Nat) : Bool :=
  currentPage == totalPages totalProducts

/-- Embedding of the page indicator template literal
`Page (currentPage) of (totalPages)` (products.js, line 255). -/
def pageInfoText (totalProducts currentPage : Nat) : String :=
  "Page " ++ toString currentPage ++ " of " ++ toString (totalPages totalProducts)

end ProductsJS

namespace ReportsJS

/-- Embedding of `getStatusText(stock)` from the reports section of
static/js/dashboard.js (lines 342-346); textually identical to the copy
in products.js. -/
def getStatusText (stock : Nat) : String :=
  if stock = 0 then "Out of Stock"
  else if stock < 10 then "Low Stock"
  else "In Stock"

end ReportsJS

/-- The HTML span that `getStatusBadge` would produce from a status class
and a status text; used to compare the badge function against the
class/text pair of the other scripts. -/
def statusSpan (cls txt : String) : String :=
  "<span class=\"status " ++ cls ++ "\">" ++ txt ++ "</span>"

/-- C1: the claim states that every client-side status-classification
function sends `stock_quantity = 10` to in-stock.  Evaluating the code at
the failing input 10: `getStatusBadge` (products page script) returns the
low-stock badge, while `getStatusClass` / `getStatusText` (products.js)
and `getStatusText` (reports script) return in-stock, as the claim, the
specification table and the repository's own test summary
(low stock = fewer than 10 units) demand. -/
theorem C1_status_boundary_bug :
    ProductsPage.getStatusBadge 10 =
      "<span class=\"status low-stock\">Low Stock</span>" ∧
    ProductsJS.getStatusClass 10 = "in-stock" ∧
    ProductsJS.getStatusText 10 = "In Stock" ∧
    ReportsJS.getStatusText 10 = "In Stock" :=
  ⟨rfl, rfl, rfl, rfl⟩

/-- C7 counterexample: at stock quantity 10 the badge produced by
`getStatusBadge` is not the span assembled from the status class and the
status text of products.js, so the duplicated classifiers do not agree
everywhere. -/
theorem C7_agreement_counterexample :
    ProductsPage.getStatusBadge 10 ≠
      statusSpan (ProductsJS.getStatusClass 10) (ProductsJS.getStatusText 10) := by
  decide

/-- C7 amended: the duplicated classifiers agree at every stock quantity
other than 10 — `getStatusBadge` is exactly the span assembled from
`getStatusClass` and `getStatusText` — and the two `getStatusText` copies
(products.js and the reports script) agree everywhere. -/
theorem C7_agreement_amended (stock : Nat) :
    (stock ≠ 10 →
      ProductsPage.getStatusBadge stock =
        statusSpan (ProductsJS.getStatusClass stock) (ProductsJS.getStatusText stock)) ∧
    ReportsJS.getStatusText stock = ProductsJS.getStatusText stock := by
  constructor
  · intro hne
    unfold ProductsPage.getStatusBadge ProductsJS.getStatusClass
      ProductsJS.getStatusText statusSpan
    split_ifs <;> first | rfl | omega
  · unfold ReportsJS.getStatusText ProductsJS.getStatusText
    rfl

/-- C7 witness: at stock quantity 5 the hypothesis of the amended claim is
discharged and the badge agrees with the class/text pair. -/
theorem C7_agreement_witness :
    ProductsPage.getStatusBadge 5 =
      statusSpan (ProductsJS.getStatusClass 5) (ProductsJS.getStatusText 5) :=
  (C7_agreement_amended 5).1 (by decide)

/-- C4 counterexample: with 0 products and current page 1 the next control
is enabled (`nextDisabled` is false because `1 ≠ totalPages 0 = 0`), yet
`1 < totalPages 0` fails — so "next is enabled exactly when
current_page < total_pages" is false at this boundary count. -/
theorem C4_next_enabled_counterexample :
    ProductsJS.nextDisabled 0 1 = false ∧ ¬ (1 < ProductsJS.totalPages 0) := by
  decide

/-- C4 amended: for every total and every current page ≥ 1,
`updatePagination` enables the previous control exactly when
current_page > 1, and enables the next control exactly when
current_page ≠ total_pages (the code compares with strict equality, not
with <, so pages beyond total_pages — in particular page 1 when there are
no products — leave the next control enabled). -/
theorem C4_pagination_controls_amended (totalProducts currentPage : Nat)
    (h : 1 ≤ currentPage) :
    ((ProductsJS.prevDisabled currentPage = false) ↔ 1 < currentPage) ∧
    ((ProductsJS.nextDisabled totalProducts currentPage = false) ↔
      currentPage ≠ ProductsJS.totalPages totalProducts) := by
  constructor
  · unfold ProductsJS.prevDisabled
    simp only [beq_eq_false_iff_ne, ne_eq]
    omega
  · unfold ProductsJS.nextDisabled
    simp only [beq_eq_false_iff_ne, ne_eq]

/-- C4 witness: at 11 products and current page 2 (the per_page + 1
boundary) the hypothesis holds; the previous control is enabled and the
next control is disabled since page 2 is the last of 2 pages. -/
theorem C4_pagination_controls_witness :
    ((ProductsJS.prevDisabled 2 = false) ↔ 1 < 2) ∧
    ((ProductsJS.nextDisabled 11 2 = false) ↔ 2 ≠ ProductsJS.totalPages 11) :=
  C4_pagination_controls_amended 11 2 (by decide)

/-- C5 counterexample: with no matching products, `updatePagination`
computes `totalPages 0 = 0` and writes the raw value into the indicator,
which therefore reads exactly "Page 1 of 0". -/
theorem C5_page_one_of_zero_counterexample :
    ProductsJS.pageInfoText 0 1 = "Page 1 of 0" := by
  decide

/-- C5 amended: `updatePagination` does not treat `total_pages = 0` as 1;
for a total of 0 products the computed page count is 0 and the indicator
shows "Page (currentPage) of 0" for whatever the current page is. -/
theorem C5_display_amended (currentPage : Nat) :
    ProductsJS.totalPages 0 = 0 ∧
    ProductsJS.pageInfoText 0 currentPage =
      "Page " ++ toString currentPage ++ " of 0" := by
  refine ⟨rfl, ?_⟩
  unfold ProductsJS.pageInfoText
  have h : toString (ProductsJS.totalPages 0) = "0" := rfl
  rw [h, String.append_assoc]
  exact congrArg (fun s => "Page " ++ toString currentPage ++ s) (by decide)

/-- Page 1 of the table slice is the first ten products. -/
theorem pageProducts_one (l : List α) : ProductsJS.pageProducts l 1 = l.take 10 := by
  simp [ProductsJS.pageProducts, ProductsJS.productsPerPage]

/-- Moving one page forward over a list is the same as looking at the
previous page of the list with its first ten products dropped. -/
theorem pageProducts_succ (l : List α) (i : Nat) :
    ProductsJS.pageProducts l (i + 2) = ProductsJS.pageProducts (l.drop 10) (i + 1) := by
  simp only [ProductsJS.pageProducts, ProductsJS.productsPerPage]
  rw [List.take_drop, List.drop_drop]
  have e2 : (i + 2 - 1) * 10 + 10 = 10 + ((i + 1 - 1) * 10 + 10) := by omega
  have e1 : (i + 2 - 1) * 10 = 10 + (i + 1 - 1) * 10 := by omega
  rw [e2, e1]

/-- Concatenating the slices of pages 1..k restores the list whenever k
pages suffice to cover it. -/
theorem join_pages_aux (k : Nat) :
    ∀ (l : List α), l.length ≤ k * 10 →
      ((List.range k).map (fun i => ProductsJS.pageProducts l (i + 1))).flatten = l := by
  induction k with
  | zero =>
      intro l hl
      have hnil : l = [] := List.eq_nil_of_length_eq_zero (by omega)
      subst hnil
      rfl
  | succ k ih =>
      intro l hl
      rw [List.range_succ_eq_map, List.map_cons, List.map_map, List.flatten_cons]
      have hmap : ∀ j ∈ List.range k,
          ((fun i => ProductsJS.pageProducts l (i + 1)) ∘ Nat.succ) j =
            ProductsJS.pageProducts (l.drop 10) (j + 1) := by
        intro j _
        exact pageProducts_succ l j
      rw [List.map_congr_left hmap, ih (l.drop 10) (by simp only [List.length_drop]; omega)]
      rw [show (0 + 1 : Nat) = 1 from rfl, pageProducts_one, List.take_append_drop]

/-- C2: with the fixed page size of 10, concatenating the page slices
rendered by `renderProductsTable` for pages 1 through
ceil(length / 10) (the `totalPages` of `updatePagination`) reproduces
the product list exactly — no duplicates, no omissions, in order. -/
theorem C2_pages_concat_exact (l : List α) :
    ((List.range (ProductsJS.totalPages l.length)).map
        (fun i => ProductsJS.pageProducts l (i + 1))).flatten = l := by
  apply join_pages_aux
  unfold ProductsJS.totalPages ProductsJS.productsPerPage
  omega

/-- C6: rendering any page strictly beyond the last page produces the
empty slice — `renderProductsTable` yields zero product rows and no
error (the embedding is a total function). -/
theorem C6_beyond_last_page_empty (l : List α) (page : Nat)
    (h : ProductsJS.totalPages l.length < page) :
    ProductsJS.pageProducts l page = [] := by
  simp only [ProductsJS.pageProducts, ProductsJS.productsPerPage]
  apply List.drop_eq_nil_of_le
  have hlen : l.length ≤ (page - 1) * 10 := by
    unfold ProductsJS.totalPages ProductsJS.productsPerPage at h
    omega
  calc (l.take ((page - 1) * 10 + 10)).length ≤ l.length := by
        simp [List.length_take]
    _ ≤ (page - 1) * 10 := hlen

/-- C6 witness: a three-product list has one page, so page 2 renders an
empty slice. -/
theorem C6_beyond_last_page_witness :
    ProductsJS.totalPages ([10, 20, 30] : List Nat).length < 2 ∧
    ProductsJS.pageProducts ([10, 20, 30] : List Nat) 2 = [] :=
  ⟨by decide, C6_beyond_last_page_empty [10, 20, 30] 2 (by decide)⟩

namespace ProductsPage

/-- Embedding of `params.delete(key)` of the URL Standard: removes every
name/value pair whose name equals the given key. -/
def deleteParam (key : String) (l : List (String × String)) : List (String × String) :=
  l.filter (fun q => q.1 != key)

/-- Embedding of the empty-filter removal loop of `loadProducts`
(part_000, lines 49-53): iterate over `params.entries()` and delete every
entry whose value is falsy.  Per the URL Standard the entries iterator is
index-based over the live list: it yields the pair at the current index
and advances the index, and a `delete` inside the body shifts the later
entries down one position, so the entry immediately after a deleted one
is never visited.  The first argument is fuel bounding the number of
steps; the index grows by one per step and the list never grows, so the
initial length is always enough fuel. -/
def removeEmptyLoop : Nat → List (String × String) → Nat → List (String × String)
  | 0, l, _ => l
  | fuel + 1, l, idx =>
    if h : idx < l.length then
      let p := l.get ⟨idx, h⟩
      if p.2 = "" then removeEmptyLoop fuel (deleteParam p.1 l) (idx + 1)
      else removeEmptyLoop fuel l (idx + 1)
    else l

/-- Embedding of the query construction of `loadProducts` (part_000,
lines 40-55): a URLSearchParams built from page, per_page and the three
current filters in insertion order, then cleaned by the removal loop. -/
def loadProductsParams (page : Nat) (search category status : String) :
    List (String × String) :=
  let params := [("page", toString page), ("per_page", toString 10),
    ("search", search), ("category", category), ("status", status)]
  removeEmptyLoop params.length params 0

end ProductsPage

namespace ApiJS

/-- Embedding of the query construction of `InventoryAPI.getProducts`
(part_001, lines 191-199): a parameter is appended only when the filter
value is truthy (non-empty), in the order category, search, status. -/
def getProductsParams (search category status : String) : List (String × String) :=
  (if category ≠ "" then [("category", category)] else []) ++
  (if search ≠ "" then [("search", search)] else []) ++
  (if status ≠ "" then [("status", status)] else [])

end ApiJS

/-- C3: the claim states that every empty filter parameter is omitted
from the request query.  Evaluating `loadProducts` at its default state
(page 1, all three filters empty): deleting entries while iterating the
live URLSearchParams list skips the entry after each deletion, so the
loop deletes `search` and `status` but skips and keeps `category` with
its empty value — the query sent is page=1, per_page=10, category=.
`InventoryAPI.getProducts` (part_001), by contrast, omits all three. -/
theorem C3_empty_filter_leaks :
    ProductsPage.loadProductsParams 1 "" "" "" =
      [("page", "1"), ("per_page", "10"), ("category", "")] ∧
    ApiJS.getProductsParams "" "" "" = [] := by
  decide

namespace ReportsJS

/-- Embedding of the total-value reduction of `loadSummaryStats`
(dashboard.js reports section, lines 184-186): a fold with initial value
0 adding price times stock quantity per product. -/
def totalValue (products : List Product) : ℚ :=
  products.foldl (fun sum product => sum + product.price * (product.stock_quantity : ℚ)) 0

end ReportsJS

/-- Folding addition of a projected value distributes as the sum of the
mapped list. -/
theorem foldl_add_sum (g : Product → ℚ) :
    ∀ (l : List Product) (init : ℚ),
      l.foldl (fun s p => s + g p) init = init + (l.map g).sum := by
  intro l
  induction l with
  | nil => intro init; simp
  | cons p t ih => intro init; simp [ih, add_assoc]

/-- C9: the total inventory value computed by the reports page equals the
sum over the fetched list of price times stock quantity, and is 0 for an
empty list. -/
theorem C9_total_inventory_value (products : List Product) :
    ReportsJS.totalValue products =
      (products.map (fun p => p.price * (p.stock_quantity : ℚ))).sum ∧
    ReportsJS.totalValue [] = 0 := by
  constructor
  · unfold ReportsJS.totalValue
    simpa using foldl_add_sum (fun p => p.price * (p.stock_quantity : ℚ)) products 0
  · rfl

/-- Whether the first character list is an initial segment of the second. -/
def hasLead : List Char → List Char → Bool
  | [], _ => true
  | _ :: _, [] => false
  | a :: as, b :: bs => a == b && hasLead as bs

/-- Whether the first character list occurs contiguously somewhere inside
the second. -/
def hasSub (needle : List Char) : List Char → Bool
  | [] => hasLead needle []
  | b :: t => hasLead needle (b :: t) || hasSub needle t

/-- Case-insensitive substring test on strings: both sides are
lowercased and the needle is searched for contiguously. -/
def containsCI (needle hay : String) : Bool :=
  hasSub needle.toLower.data hay.toLower.data

/-- The specification's wording of a case-insensitive substring match:
after lowercasing, the needle appears contiguously inside the haystack. -/
def OccursCI (needle hay : String) : Prop :=
  ∃ l₁ l₂, hay.toLower.data = l₁ ++ (needle.toLower.data ++ l₂)

/-- Initial-segment test agrees with the existence of a remainder. -/
theorem hasLead_iff (n : List Char) :
    ∀ h : List Char, hasLead n h = true ↔ ∃ t, h = n ++ t := by
  induction n with
  | nil =>
      intro h
      simp [hasLead]
  | cons a as ih =>
      intro h
      cases h with
      | nil => simp [hasLead]
      | cons b bs =>
          simp only [hasLead, Bool.and_eq_true, beq_iff_eq, ih bs,
            List.cons_append, List.cons.injEq]
          constructor
          · rintro ⟨rfl, t, rfl⟩
            exact ⟨t, rfl, rfl⟩
          · rintro ⟨t, rfl, rfl⟩
            exact ⟨rfl, t, rfl⟩

/-- Substring test agrees with the existence of a decomposition into a
part before, the needle, and a part after. -/
theorem hasSub_iff (n : List Char) :
    ∀ h : List Char, hasSub n h = true ↔ ∃ l₁ l₂, h = l₁ ++ (n ++ l₂) := by
  intro h
  induction h with
  | nil =>
      simp only [hasSub, hasLead_iff]
      constructor
      · rintro ⟨t, ht⟩
        exact ⟨[], t, ht⟩
      · rintro ⟨l₁, l₂, hl⟩
        have hnil := hl.symm
        rw [List.append_eq_nil] at hnil
        exact ⟨l₂, hnil.2.symm⟩
  | cons b t ih =>
      simp only [hasSub, Bool.or_eq_true, hasLead_iff, ih]
      constructor
      · rintro (⟨l₂, hl⟩ | ⟨l₁, l₂, hl⟩)
        · exact ⟨[], l₂, hl⟩
        · exact ⟨b :: l₁, l₂, by rw [List.cons_append, hl]⟩
      · rintro ⟨l₁, l₂, hl⟩
        cases l₁ with
        | nil =>
            left
            exact ⟨l₂, by simpa using hl⟩
        | cons c l₁ =>
            right
            rw [List.cons_append, List.cons.injEq] at hl
            exact ⟨l₁, l₂, hl.2⟩

namespace Backend

/-- The optional filter triple of the listing request; an empty string
stands for an absent filter. -/
structure Filters where
  search : String
  category : String
  status : String

/-- Modelled from the spec: the derived stock-status value of the data
model (stock 0 is out-of-stock, 1 to 9 is low-stock, 10 and above is
in-stock); the backend source backend/app.py is not among the delivered
files. -/
def derivedStatus (stockQuantity : Nat) : String :=
  if stockQuantity = 0 then "out-of-stock"
  else if stockQuantity < 10 then "low-stock"
  else "in-stock"

/-- Modelled from the spec: whether a product passes all supplied
filters of the listing endpoint (section 4.1) — filters combine with
logical AND, empty values impose no constraint, a non-empty search must
occur case-insensitively in name, sku or description (OR across the
fields), category is exact equality, and status is exact match against
the derived status; backend/app.py is not among the delivered files. -/
def matchesFilters (f : Filters) (p : Product) : Bool :=
  (f.search == "" || (containsCI f.search p.name || containsCI f.search p.sku ||
    containsCI f.search p.description)) &&
  (f.category == "" || p.category == f.category) &&
  (f.status == "" || f.status == derivedStatus p.stock_quantity)

/-- Modelled from the spec: the listing operation returns exactly the
products satisfying all supplied filters; backend/app.py is not among
the delivered files. -/
def listProducts (ds : List Product) (f : Filters) : List Product :=
  ds.filter (matchesFilters f)

end Backend

/-- C8: membership in the result of the listing operation is exactly the
conjunction of the supplied predicates — a non-empty search must occur
case-insensitively as a substring of name, sku or description (OR across
the three fields), a non-empty category must match exactly, a non-empty
status must match the derived stock status, and empty filters impose no
constraint. -/
theorem C8_listing_filter_semantics (ds : List Product) (f : Backend.Filters)
    (p : Product) :
    p ∈ Backend.listProducts ds f ↔
      p ∈ ds ∧
      (f.search ≠ "" → (OccursCI f.search p.name ∨ OccursCI f.search p.sku ∨
        OccursCI f.search p.description)) ∧
      (f.category ≠ "" → p.category = f.category) ∧
      (f.status ≠ "" → f.status = Backend.derivedStatus p.stock_quantity) := by
  have hci : ∀ a b, (containsCI a b = true) ↔ OccursCI a b := by
    intro a b
    unfold containsCI OccursCI
    exact hasSub_iff _ _
  unfold Backend.listProducts
  rw [List.mem_filter]
  unfold Backend.matchesFilters
  simp only [Bool.and_eq_true, Bool.or_eq_true, beq_iff_eq, hci]
  rw [and_assoc]
  tauto

/-- Embedding of JavaScript `Array.prototype.join(sep)`: the empty array
joins to the empty string, otherwise the elements are folded together
with the separator between consecutive elements. -/
def jsJoin (sep : String) : List String → String
  | [] => ""
  | x :: rest => rest.foldl (fun acc y => acc ++ sep ++ y) x

namespace ReportsJS

/-- Embedding of the CSV header array of `exportData` (dashboard.js
reports section, line 306). -/
def csvHeaders : List String :=
  ["SKU", "Name", "Category", "Price (KSh)", "Stock Quantity", "Status"]

/-- Rendering of the raw `product.price` number interpolated into the
CSV row.  JavaScript prints the number in decimal; the exact digit
string is irrelevant to the claims about the CSV shape, so the rational
price is rendered as its numerator, with a denominator suffix when it is
not integral. -/
def priceRepr (q : ℚ) : String :=
  if q.den = 1 then toString q.num else toString q.num ++ "/" ++ toString q.den

/-- Embedding of one data row of `exportData` (lines 309-316): the six
fields joined by commas, the name wrapped in double quotes, the Status
column produced by `getStatusText`. -/
def csvRow (product : Product) : String :=
  jsJoin "," [product.sku, "\"" ++ product.name ++ "\"", product.category,
    priceRepr product.price, toString product.stock_quantity,
    getStatusText product.stock_quantity]

/-- Embedding of `csvContent` (lines 307-317): the joined header row and
one row per product, joined by newlines. -/
def csvContent (products : List Product) : String :=
  jsJoin "\n" (jsJoin "," csvHeaders :: products.map csvRow)

end ReportsJS

/-- Splitting a character list at every occurrence of a separator
character; there is always one more piece than separators. -/
def splitCh (c : Char) : List Char → List (List Char)
  | [] => [[]]
  | a :: t =>
    if a = c then [] :: splitCh c t
    else
      match splitCh c t with
      | [] => [[a]]
      | h :: r => (a :: h) :: r

/-- Splitting never produces the empty list of pieces. -/
theorem splitCh_ne_nil (c : Char) (l : List Char) : splitCh c l ≠ [] := by
  cases l with
  | nil => simp [splitCh]
  | cons a t =>
      simp only [splitCh]
      split_ifs
      · simp
      · cases hs : splitCh c t <;> simp

/-- A list free of the separator splits into the single piece itself. -/
theorem splitCh_of_not_mem (c : Char) (l : List Char) (h : c ∉ l) :
    splitCh c l = [l] := by
  induction l with
  | nil => rfl
  | cons a t ih =>
      simp only [List.mem_cons, not_or] at h
      have hac : ¬ (a = c) := fun hh => h.1 hh.symm
      simp only [splitCh, if_neg hac, ih h.2]

/-- Splitting distributes over an occurrence of the separator. -/
theorem splitCh_append (c : Char) (a b : List Char) :
    splitCh c (a ++ c :: b) = splitCh c a ++ splitCh c b := by
  induction a with
  | nil => simp [splitCh]
  | cons x xs ih =>
      by_cases hx : x = c
      · subst hx
        simp [splitCh, ih]
      · simp only [List.cons_append, splitCh, if_neg hx, List.append_eq]
        rw [ih]
        cases hs : splitCh c xs with
        | nil => exact absurd hs (splitCh_ne_nil c xs)
        | cons hd tl => simp

/-- The character data of a join of a non-empty list of strings. -/
theorem jsJoin_data (sep : String) (x : String) (rest : List String) :
    (jsJoin sep (x :: rest)).data =
      x.data ++ (rest.map (fun y => sep.data ++ y.data)).flatten := by
  suffices haux : ∀ (l : List String) (acc : String),
      (l.foldl (fun a y => a ++ sep ++ y) acc).data =
        acc.data ++ (l.map (fun y => sep.data ++ y.data)).flatten by
    simpa [jsJoin] using haux rest x
  intro l
  induction l with
  | nil => intro acc; simp
  | cons y t ih =>
      intro acc
      simp [ih, List.append_assoc]

/-- Splitting a separator-join of separator-free pieces recovers exactly
the pieces. -/
theorem splitCh_jsJoin (c : Char) (sep : String) (hsep : sep.data = [c])
    (x : String) (rest : List String)
    (hfree : ∀ s ∈ x :: rest, c ∉ s.data) :
    splitCh c (jsJoin sep (x :: rest)).data = (x :: rest).map String.data := by
  induction rest generalizing x with
  | nil =>
      have : jsJoin sep [x] = x := rfl
      rw [this, splitCh_of_not_mem c x.data (hfree x (by simp))]
      rfl
  | cons y t ih =>
      have hstep : (jsJoin sep (x :: y :: t)).data =
          x.data ++ (c :: (jsJoin sep (y :: t)).data) := by
        rw [jsJoin_data, jsJoin_data]
        simp only [hsep, List.map_cons, List.flatten_cons, List.singleton_append,
          List.append_assoc, List.cons_append, List.nil_append]
      rw [hstep, splitCh_append,
        splitCh_of_not_mem c x.data (hfree x (by simp)),
        ih y (fun s hs => hfree s (List.mem_cons_of_mem x hs))]
      rfl

/-- The last comma-field of a comma-join whose final piece is comma-free
is exactly that final piece. -/
theorem splitCh_jsJoin_last (c : Char) (sep : String) (hsep : sep.data = [c])
    (x : String) (mid : List String) (z : String) (hz : c ∉ z.data) :
    (splitCh c (jsJoin sep (x :: mid ++ [z])).data).getLast? = some z.data := by
  have hdata : (jsJoin sep (x :: mid ++ [z])).data =
      (x.data ++ (mid.map (fun y => sep.data ++ y.data)).flatten) ++ (c :: z.data) := by
    have hj := jsJoin_data sep x (mid ++ [z])
    rw [show x :: mid ++ [z] = x :: (mid ++ [z]) from rfl, hj]
    simp [hsep, List.map_append, List.flatten_append, List.append_assoc]
  rw [hdata, splitCh_append, splitCh_of_not_mem c z.data hz, List.getLast?_concat]

/-- The Status texts contain no comma. -/
theorem statusText_no_comma (stock : Nat) :
    ',' ∉ (ReportsJS.getStatusText stock).data := by
  unfold ReportsJS.getStatusText
  split_ifs <;> decide

/-- C10: for a product list whose rendered rows contain no newline
character, the CSV text assembled by `exportData` splits on newlines
into exactly one header line followed by one row per product in list
order, and the last comma-field of every row — the Status column — is
exactly `getStatusText` of that product's stock quantity. -/
theorem C10_csv_structure (products : List Product)
    (hrows : ∀ p ∈ products, '\n' ∉ (ReportsJS.csvRow p).data) :
    splitCh '\n' (ReportsJS.csvContent products).data =
      (jsJoin "," ReportsJS.csvHeaders).data ::
        products.map (fun p => (ReportsJS.csvRow p).data) ∧
    ∀ p ∈ products,
      (splitCh ',' (ReportsJS.csvRow p).data).getLast? =
        some (ReportsJS.getStatusText p.stock_quantity).data := by
  constructor
  · unfold ReportsJS.csvContent
    rw [splitCh_jsJoin '\n' "\n" rfl _ _ ?hfree]
    · simp [List.map_map]
    case hfree =>
      intro s hs
      rcases List.mem_cons.mp hs with rfl | hmem
      · decide
      · obtain ⟨p, hp, rfl⟩ := List.mem_map.mp hmem
        exact hrows p hp
  · intro p hp
    have h := splitCh_jsJoin_last ',' "," rfl p.sku
      ["\"" ++ p.name ++ "\"", p.category, ReportsJS.priceRepr p.price,
        toString p.stock_quantity]
      (ReportsJS.getStatusText p.stock_quantity)
      (statusText_no_comma p.stock_quantity)
    unfold ReportsJS.csvRow
    exact h

/-- A concrete product used to instantiate the CSV theorem. -/
def sampleProduct : Product :=
  { id := 1, sku := "ELE001", name := "Desk Lamp", category := "Electronics",
    price := 1500, stock_quantity := 7, description := "warm light" }

/-- C10 witness: on a one-product list with newline-free fields, the CSV
splits into the header line and the single row, whose last comma-field
is the Low Stock status of quantity 7. -/
theorem C10_csv_witness :
    splitCh '\n' (ReportsJS.csvContent [sampleProduct]).data =
      (jsJoin "," ReportsJS.csvHeaders).data :: [(ReportsJS.csvRow sampleProduct).data] ∧
    (splitCh ',' (ReportsJS.csvRow sampleProduct).data).getLast? =
      some (ReportsJS.getStatusText 7).data := by
  have h := C10_csv_structure [sampleProduct] (by decide)
  exact ⟨h.1, h.2 sampleProduct (by simp)⟩
